import Mathlib

/-!
Shallow embedding of the njsbcl-email-automation scripts
(`scraper.py`, `contacts_parser.py`, `llm_contacts.py`, `email_manager.py`,
`main.py`, `config.py`) and proofs of the specification's testable
properties about them.

Python strings are modelled as Lean `String` (a wrapper around
`List Char`); the Python string primitives used by the code
(`str.strip`, `str.lower`, `str.upper`, `str.split`, `str.replace`,
`int(...)`) are re-implemented here over `List Char` so that every
definition evaluates inside the kernel.  Character classes are modelled
at ASCII granularity.  Calendar dates are modelled by a `Date` structure
validated exactly as Python's `datetime.date` constructor validates its
arguments, with the weekday computed from a proleptic-Gregorian day
count.
-/

namespace Py

/-- ASCII whitespace, the characters `str.strip()` / `str.split()` remove. -/
def isSpace (c : Char) : Bool :=
  c = ' ' || c = '\t' || c = '\n' || c = '\r' || c = '\x0b' || c = '\x0c'

/-- Boolean "is `p` a prefix of `s`" on character lists. -/
def isPrefixList : List Char → List Char → Bool
  | [], _ => true
  | _ :: _, [] => false
  | p :: ps, s :: ss => p = s && isPrefixList ps ss

/-- Python `needle in hay` substring test. -/
def containsList (hay needle : List Char) : Bool :=
  (List.range (hay.length + 1)).any fun i => isPrefixList needle (hay.drop i)

/-- `str.strip()`: drop ASCII whitespace from both ends. -/
def stripL (s : List Char) : List Char :=
  ((s.dropWhile isSpace).reverse.dropWhile isSpace).reverse

def strip (s : String) : String := ⟨stripL s.data⟩

/-- `str.lower()` (ASCII). -/
def lower (s : String) : String := ⟨s.data.map Char.toLower⟩

/-- `str.upper()` (ASCII). -/
def upper (s : String) : String := ⟨s.data.map Char.toUpper⟩

/-- Fuelled worker for `str.split(sep)` (each recursive call consumes at
    least one character, so fuel = input length always suffices). -/
def splitOnAux (sep : List Char) : Nat → List Char → List (List Char)
  | _, [] => [[]]
  | 0, s => [s]
  | fuel + 1, c :: rest =>
    if sep ≠ [] ∧ isPrefixList sep (c :: rest) then
      [] :: splitOnAux sep fuel ((c :: rest).drop sep.length)
    else
      match splitOnAux sep fuel rest with
      | [] => [[c]]
      | h :: t => (c :: h) :: t

/-- `str.split(sep)` for a non-empty separator. -/
def splitOnL (sep s : List Char) : List (List Char) :=
  splitOnAux sep s.length s

def splitOn (s sep : String) : List String :=
  (splitOnL sep.data s.data).map (fun l => ⟨l⟩)

/-- `str.replace(pat, rep)` for a non-empty pattern: left-to-right,
    non-overlapping replacement of every occurrence (via the identity
    `s.replace(p, r) = r.join(s.split(p))`). -/
def replaceL (pat rep s : List Char) : List Char :=
  List.intercalate rep (splitOnL pat s)

def replace (s pat rep : String) : String := ⟨replaceL pat.data rep.data s.data⟩

/-- `str.split()` with no argument: split on whitespace runs, dropping
    empty tokens. -/
def splitWs (s : String) : List String :=
  ((s.data.foldr
      (fun c acc =>
        if isSpace c then [] :: acc
        else match acc with
          | [] => [[c]]
          | h :: t => (c :: h) :: t)
      []).filter (· ≠ [])).map (fun l => ⟨l⟩)

/-- Digit-run parser for Python `int(...)`: underscores are allowed only
    between digits. -/
def digitsValue (l : List Char) : Option Nat :=
  if l = [] then none
  else if l.head? = some '_' ∨ l.getLast? = some '_' then none
  else if (l.zip l.tail).any (fun p => p.1 = '_' ∧ p.2 = '_') then none
  else if l.all (fun c => c.isDigit || c = '_') then
    some ((l.filter (·.isDigit)).foldl (fun n c => 10 * n + (c.toNat - 48)) 0)
  else none

/-- Python `int(str)`: optional surrounding whitespace, optional sign,
    digits (with underscore separators); `none` models `ValueError`. -/
def toInt (s : String) : Option Int :=
  let l := stripL s.data
  match l with
  | '+' :: rest => (digitsValue rest).map (Int.ofNat ·)
  | '-' :: rest => (digitsValue rest).map (fun n => -(Int.ofNat n))
  | _ => (digitsValue l).map (Int.ofNat ·)

end Py

namespace Calendar

/-- Gregorian leap-year rule (as used by `datetime.date`). -/
def isLeap (y : Nat) : Bool :=
  (y % 4 = 0 && y % 100 ≠ 0) || y % 400 = 0

def daysInMonth (y m : Nat) : Nat :=
  if m = 2 then (if isLeap y then 29 else 28)
  else if m = 4 ∨ m = 6 ∨ m = 9 ∨ m = 11 then 30
  else 31

/-- A calendar date as `datetime.date` stores it. -/
structure Date where
  year : Nat
  month : Nat
  day : Nat
deriving DecidableEq, Repr

/-- `datetime.date(year, month, day)`: `none` models the `ValueError`
    raised on out-of-range components. -/
def mkDate (y : Int) (m : Nat) (d : Int) : Option Date :=
  if 1 ≤ y ∧ y ≤ 9999 ∧ 1 ≤ m ∧ m ≤ 12 ∧ 1 ≤ d ∧ d ≤ daysInMonth y.toNat m then
    some ⟨y.toNat, m, d.toNat⟩
  else none

/-- Days in the months strictly before month `m` of year `y`. -/
def daysBeforeMonth (y m : Nat) : Nat :=
  (List.range m).foldl (fun acc i => if i = 0 then acc else acc + daysInMonth y i) 0

/-- Proleptic-Gregorian day number: 0001-01-01 ↦ 1. -/
def rataDie (dt : Date) : Nat :=
  365 * (dt.year - 1) + (dt.year - 1) / 4 + (dt.year - 1) / 400
    + daysBeforeMonth dt.year dt.month + dt.day - (dt.year - 1) / 100

/-- `date.weekday()`: Monday = 0, …, Sunday = 6 (0001-01-01 was a Monday). -/
def weekday (dt : Date) : Nat :=
  (rataDie dt - 1) % 7

def weekdayNames : List String :=
  ["Monday", "Tuesday", "Wednesday", "Thursday", "Friday", "Saturday", "Sunday"]

/-- `date.strftime('%A')`. -/
def weekdayName (dt : Date) : String :=
  weekdayNames.getD (weekday dt) ""

def monthNames : List String :=
  ["January", "February", "March", "April", "May", "June",
   "July", "August", "September", "October", "November", "December"]

/-- Python `date` ordering: lexicographic on (year, month, day). -/
def dateLe (a b : Date) : Bool :=
  a.year < b.year
    || (a.year = b.year && a.month < b.month)
    || (a.year = b.year && a.month = b.month && a.day ≤ b.day)

/-- Strict Python `date` ordering. -/
def dateLt (a b : Date) : Bool :=
  a.year < b.year
    || (a.year = b.year && a.month < b.month)
    || (a.year = b.year && a.month = b.month && a.day < b.day)

/-- Weekday (Monday = 0) of a rata-die day number. -/
def rdWeekday (rd : Nat) : Nat := (rd - 1) % 7

theorem dateLt_of_not_dateLe {a b : Date} (h : dateLe a b = false) :
    dateLt b a = true := by
  simp only [dateLe, dateLt, Bool.or_eq_true, Bool.and_eq_true, decide_eq_true_eq,
    Bool.or_eq_false_iff, Bool.and_eq_false_iff, decide_eq_false_iff_not] at h ⊢
  omega

end Calendar

/-!
The email regular expression shared by `ContactsParser._is_valid_email`
and `LLMContactExtractor._is_valid_email`:

  `\b[A-Za-z0-9._%+-]+@[A-Za-z0-9.-]+\.[A-Z|a-z]{2,}\b`

used with `re.match`, i.e. anchored at the start of the string only.  A
backtracking regex engine succeeds iff some choice of extents succeeds,
so the match is modelled as a bounded existential over the positions of
the `@`, of the final `.`, and of the end of the match.  Word characters
(`\b`) are modelled at ASCII granularity.
-/

namespace EmailRe

/-- `\w` (ASCII): letters, digits, underscore. -/
def isWordChar (c : Char) : Bool := c.isAlphanum || c = '_'

/-- The local-part class `[A-Za-z0-9._%+-]`. -/
def localClass (c : Char) : Bool :=
  c.isAlphanum || c = '.' || c = '_' || c = '%' || c = '+' || c = '-'

/-- The domain class `[A-Za-z0-9.-]`. -/
def domainClass (c : Char) : Bool := c.isAlphanum || c = '.' || c = '-'

/-- The final class `[A-Z|a-z]` (note: it literally contains `|`). -/
def tldClass (c : Char) : Bool := c.isAlpha || c = '|'

/-- Is the character at index `k` (if any) a word character? -/
def wordAt (s : List Char) (k : Nat) : Bool :=
  match s[k]? with
  | some c => isWordChar c
  | none => false

/-- The regex matches `s` exactly on positions `[0, k)`, with the `@` at
    index `i` and the final `.` at index `j`. -/
def matchesAt (s : List Char) (i j k : Nat) : Bool :=
  decide (1 ≤ i) && wordAt s 0 && (s.take i).all localClass
    && decide (s[i]? = some '@') && decide (i + 2 ≤ j)
    && ((s.drop (i + 1)).take (j - (i + 1))).all domainClass
    && decide (s[j]? = some '.') && decide (j + 3 ≤ k) && decide (k ≤ s.length)
    && ((s.drop (j + 1)).take (k - (j + 1))).all tldClass
    && (wordAt s (k - 1) != wordAt s k)

/-- `re.match(email_pattern, s)` as a boolean. -/
def reMatch (s : List Char) : Bool :=
  (List.range (s.length + 1)).any fun i =>
    (List.range (s.length + 1)).any fun j =>
      (List.range (s.length + 1)).any fun k =>
        matchesAt s i j k

def optWord (c? : Option Char) : Bool :=
  match c? with
  | some c => isWordChar c
  | none => false

/-- The whole pattern except its trailing `\b`, matching all of `p`
    (the `@` at index `i`, the final `.` at index `j`). -/
def emailShapeAt (p : List Char) (i j : Nat) : Bool :=
  decide (1 ≤ i) && wordAt p 0 && (p.take i).all localClass
    && decide (p[i]? = some '@') && decide (i + 2 ≤ j)
    && ((p.drop (i + 1)).take (j - (i + 1))).all domainClass
    && decide (p[j]? = some '.') && decide (j + 3 ≤ p.length)
    && (p.drop (j + 1)).all tldClass

/-- `p` as a whole has the shape of the email pattern (minus the
    trailing `\b`). -/
def emailShape (p : List Char) : Bool :=
  (List.range (p.length + 1)).any fun i =>
    (List.range (p.length + 1)).any fun j => emailShapeAt p i j

/-- Is there a `\b` word boundary between the end of `p` and the start
    of `r` in the string `p ++ r`? -/
def boundaryBetween (p r : List Char) : Bool :=
  optWord p.getLast? != optWord r.head?

end EmailRe

/-! Model of `contacts_parser.py` (class `ContactsParser`).  The contact
file is passed in as its list of lines (`f.readlines()` with the
trailing newlines already removed by the `strip()` calls the code
performs on every line it uses). -/

namespace ContactsParser

/-- `ContactsParser._is_valid_email`. -/
def is_valid_email (email : String) : Bool := EmailRe.reMatch email.data

/-- Index assigned by the header loop `for i, header in enumerate(...)`:
    the *last* occurrence of `key` wins, since later iterations overwrite
    the variable. -/
def lastIdx (headers : List String) (key : String) : Option Nat :=
  ((headers.enum.filter (fun p => decide (p.2 = key))).getLast?).map (·.1)

/-- One email column of one data row: kept only when the column exists,
    the row is long enough, and the stripped value is non-empty and
    accepted by the validator. -/
def pickEmail (fields : List String) : Option Nat → List String
  | none => []
  | some i =>
    if i < fields.length then
      let e := Py.strip (fields.getD i "")
      if e ≠ "" ∧ is_valid_email e then [e] else []
    else []

/-- Emails collected for one data row: the captain email, then the vice
    captain email. -/
def rowEmails (fields : List String) (ci vi : Option Nat) : List String :=
  pickEmail fields ci ++ pickEmail fields vi

/-- Python `dict` assignment on an insertion-ordered association list:
    overwriting a present key keeps its position, a new key is appended. -/
def assocInsert : List (String × List String) → String → List String →
    List (String × List String)
  | [], k, v => [(k, v)]
  | (k', v') :: rest, k, v =>
    if k' = k then (k, v) :: rest else (k', v') :: assocInsert rest k v

/-- Processing of one data row of the contacts file (the body of the
    `for row_num, line in enumerate(lines[1:], 1)` loop). -/
def loadStep (ti : Nat) (ci vi : Option Nat)
    (acc : List (String × List String)) (rawLine : String) :
    List (String × List String) :=
  let line := Py.strip rawLine
  if line = "" then acc
  else
    let fields := Py.splitOn line "\t"
    if fields.length ≤ ti then acc
    else
      let team := Py.strip (fields.getD ti "")
      if team = "" then acc
      else
        let emails := rowEmails fields ci vi
        if emails = [] then acc
        else assocInsert acc team emails

/-- Header parsing and row loop of `_load_contacts`: the first remaining
    line is the header, the rest are data rows.  An absent `Team` column
    aborts with an empty table. -/
def loadFrom : List String → List (String × List String)
  | [] => []
  | header :: rows =>
    let headers := Py.splitOn (Py.strip header) "\t"
    match lastIdx headers "Team" with
    | none => []
    | some ti =>
      rows.foldl
        (loadStep ti (lastIdx headers "Captain Email")
          (lastIdx headers "Vice Captain Email")) []

/-- `ContactsParser._load_contacts`, as a function from the file's lines
    to the insertion-ordered contact table (the optional
    `"Team Contacts"` title line is skipped first). -/
def load_contacts (fileLines : List String) : List (String × List String) :=
  match fileLines with
  | [] => loadFrom []
  | l :: rest =>
    if Py.strip l = "Team Contacts" then loadFrom rest else loadFrom (l :: rest)

/-- The fuzzy-match predicate of the fallback loop in
    `get_team_contact`: case-insensitive substring containment in either
    direction. -/
def partialPred (query : String) (kv : String × List String) : Bool :=
  Py.containsList (Py.lower kv.1).data (Py.lower query).data
    || Py.containsList (Py.lower query).data (Py.lower kv.1).data

/-- `ContactsParser.get_team_contact`: exact key match first, then the
    first fuzzy match in iteration order, else `None`. -/
def get_team_contact (d : List (String × List String)) (team_name : String) :
    Option (List String) :=
  match d.find? (fun kv => decide (kv.1 = team_name)) with
  | some kv => some kv.2
  | none => (d.find? (partialPred team_name)).map (·.2)

end ContactsParser

/-! Model of `llm_contacts.py` (class `LLMContactExtractor`): the
response parser and the email validator, which are the pure parts the
claims mention. -/

namespace LLMContacts

/-- `LLMContactExtractor._is_valid_email` (same pattern, same `re.match`). -/
def is_valid_email (email : String) : Bool := EmailRe.reMatch email.data

/-- `LLMContactExtractor._parse_llm_response`. -/
def parse_llm_response (response : String) : Option (List String) :=
  let r := Py.strip response
  if Py.upper r = "NOT_FOUND" then none
  else
    let emails := ((Py.splitOn r ",").map Py.strip).filter is_valid_email
    if emails = [] then none else some emails

end LLMContacts

namespace Config

/-- `config.TEAM_NAME`. -/
def TEAM_NAME : String := "SPARTA XI"

/-- `config.EMAIL_SEND_TIME = time(19, 0)`, as (hour, minute). -/
def EMAIL_SEND_TIME : Nat × Nat := (19, 0)

/-- `config.CC_EMAILS`. -/
def CC_EMAILS : String :=
  "yrk1436@gmail.com,sumanmaram@gmail.com,piyushparashar.rv@gmail.com"

/-- `config.EMAIL_SUBJECT_FORMAT`, already applied to the opponent name. -/
def emailSubject (opponent : String) : String := "SPARTA XI VS " ++ opponent

/-- `config.SPARTA_MAP_LINK`. -/
def SPARTA_MAP_LINK : String :=
  "https://maps.app.goo.gl/6sYdMjgKkR1ZCMya9?g_st=com.google.maps.preview.copy"

end Config

/-! Model of `scraper.py` (class `WebScraper`).  A fixture card
(`div.schedule-all`) is modelled by the pieces of markup the code
actually reads: the `div.sch-time` block with its `h4` (weekday label),
`h2` (day of month) and `h5` (month + year) texts, the link texts inside
`div.schedule-text > h3`, and the `src` attributes of the images inside
`div.schedule-logo`.  `none` models an absent element / attribute.  The
parsed page is `none` when the "UPCOMING MATCHES" section could not be
located, otherwise the list of fixture cards found in it. -/

namespace Scraper

structure SchTime where
  dayText : Option String
  dateText : Option String
  monthYearText : Option String
deriving DecidableEq, Repr

structure Entry where
  schTime : Option SchTime
  scheduleTextH3 : Option (Option (List String))
  logoDiv : Option (List (Option String))
deriving DecidableEq, Repr

structure OppInfo where
  name : String
  logo : String
  sparta_logo : Option String
deriving DecidableEq, Repr

structure GameRecord where
  opponent : String
  date : Calendar.Date
  opponent_logo : String
  sparta_logo : Option String
deriving DecidableEq, Repr

/-- The `month_map.get(month_str, 1)` lookup: unknown abbreviations
    default to 1 (January). -/
def monthFromMap (s : String) : Nat :=
  if s = "Jan" then 1 else if s = "Feb" then 2 else if s = "Mar" then 3
  else if s = "Apr" then 4 else if s = "May" then 5 else if s = "Jun" then 6
  else if s = "Jul" then 7 else if s = "Aug" then 8 else if s = "Sep" then 9
  else if s = "Oct" then 10 else if s = "Nov" then 11 else if s = "Dec" then 12
  else 1

/-- `WebScraper._extract_date`. -/
def extract_date (e : Entry) : Option Calendar.Date :=
  match e.schTime with
  | none => none
  | some st =>
    match st.dayText, st.dateText, st.monthYearText with
    | some t4, some t2, some t5 =>
      let day_name := Py.strip t4
      let day_num := Py.strip t2
      let month_year := Py.strip t5
      match Py.splitWs month_year with
      | [month_str, year_str] =>
        let month := monthFromMap month_str
        match Py.toInt year_str, Py.toInt day_num with
        | some year, some day =>
          match Calendar.mkDate year month day with
          | some game_date =>
            if Calendar.weekdayName game_date = day_name then some game_date
            else none
          | none => none
        | _, _ => none
      | _ => none
    | _, _, _ => none

/-- The filter applied to the `h3` link texts: non-empty after stripping
    and not a placeholder token. -/
def isValidTeamLink (t : String) : Bool :=
  let name := Py.strip t
  name ≠ "" && !(Py.lower name = "v" || Py.lower name = "vs"
    || Py.lower name = "versus")

/-- `WebScraper._extract_opponent_and_logo`. -/
def extract_opponent_and_logo (e : Entry) : Option OppInfo :=
  match e.scheduleTextH3 with
  | none => none
  | some none => none
  | some (some linkTexts) =>
    let validLinks := linkTexts.filter isValidTeamLink
    if validLinks.length < 2 then none
    else
      let imgs := e.logoDiv.getD []
      let final :=
        validLinks.enum.foldl
          (fun (st : Option String × Option String × Option String) p =>
            let name := Py.strip p.2
            if Py.lower name = Py.lower Config.TEAM_NAME then
              (st.1, st.2.1,
               if p.1 < imgs.length then imgs.getD p.1 none else st.2.2)
            else
              (some name,
               if p.1 < imgs.length then imgs.getD p.1 none else st.2.1,
               st.2.2))
          (none, none, none)
      match final.1, final.2.1 with
      | some n, some l =>
        if n ≠ "" ∧ l ≠ "" then some ⟨n, l, final.2.2⟩ else none
      | _, _ => none

/-- `WebScraper._parse_game_entry`. -/
def parse_game_entry (e : Entry) : Option GameRecord :=
  match extract_date e with
  | none => none
  | some game_date =>
    match extract_opponent_and_logo e with
    | none => none
    | some oi => some ⟨oi.name, game_date, oi.logo, oi.sparta_logo⟩

/-- `WebScraper._is_valid_sunday_game`. -/
def is_valid_sunday_game (g : GameRecord) (today : Calendar.Date) : Bool :=
  if Calendar.dateLe g.date today then false
  else if Calendar.weekday g.date ≠ 6 then false
  else true

/-- `WebScraper.extract_sunday_games`: `page = none` models a schedule
    page in which the "UPCOMING MATCHES" section was not found. -/
def extract_sunday_games (page : Option (List Entry)) (today : Calendar.Date) :
    List GameRecord :=
  match page with
  | none => []
  | some entries =>
    entries.filterMap fun e =>
      match parse_game_entry e with
      | some g => if is_valid_sunday_game g today then some g else none
      | none => none

end Scraper

/-! Model of `email_manager.py` (class `EmailManager`).  Network and
filesystem effects are passed in as explicit values: a logo fetch is a
`FetchResult` (HTTP status + body bytes, or a raised request error), the
template and the map image are `Option`s, and the Gmail draft-creation
call is a boolean oracle.  Bytes are `Nat`s. -/

namespace EmailManager

inductive FetchResult where
  | ok (status : Nat) (content : List Nat)
  | err
deriving DecidableEq, Repr

def b64Chars : List Char :=
  "ABCDEFGHIJKLMNOPQRSTUVWXYZabcdefghijklmnopqrstuvwxyz0123456789+/".data

def b64Ch (n : Nat) : Char := b64Chars.getD n 'A'

/-- Standard base64 of a byte sequence (`base64.b64encode`). -/
def b64Encode : List Nat → List Char
  | [] => []
  | [a] => [b64Ch (a / 4), b64Ch (a % 4 * 16), '=', '=']
  | [a, b] => [b64Ch (a / 4), b64Ch (a % 4 * 16 + b / 16), b64Ch (b % 16 * 4), '=']
  | a :: b :: c :: rest =>
    b64Ch (a / 4) :: b64Ch (a % 4 * 16 + b / 16)
      :: b64Ch (b % 16 * 4 + c / 64) :: b64Ch (c % 64) :: b64Encode rest

def endsWithL (s suf : List Char) : Bool :=
  Py.isPrefixList suf.reverse s.reverse

/-- MIME type guessed from the (lowercased) logo URL. -/
def logoMime (url : String) : String :=
  let u := (Py.lower url).data
  if endsWithL u ".png".data then "image/png"
  else if endsWithL u ".jpeg".data || endsWithL u ".jpg".data then "image/jpeg"
  else "image/jpeg"

def OPP_PLACEHOLDER : String := "src=\"{OPPONENT_LOGO}\""

def SPARTA_PLACEHOLDER : String := "src=\"{SPARTA_LOGO}\""

/-- The fallback replacement `f-string src="{url}"`. -/
def urlTag (url : String) : String := "src=\"" ++ url ++ "\""

/-- The embedded replacement `f-string src="data:{mime};base64,{b64}"`. -/
def dataTag (mime : String) (content : List Nat) : String :=
  "src=\"data:" ++ mime ++ ";base64," ++ (⟨b64Encode content⟩ : String) ++ "\""

/-- One half of `EmailManager._embed_team_logos`: handle one logo URL
    against one placeholder.  A missing URL (Python falsy) leaves the
    template untouched; HTTP 200 embeds base64 data; any other status or
    a raised request error falls back to the original remote URL. -/
def embedOneLogo (ph html url : String) (fetch : FetchResult) : String :=
  if url = "" then html
  else
    match fetch with
    | .ok 200 content => Py.replace html ph (dataTag (logoMime url) content)
    | .ok _ _ => Py.replace html ph (urlTag url)
    | .err => Py.replace html ph (urlTag url)

/-- `EmailManager._embed_team_logos`: opponent logo first, then own-team
    logo, each independently. -/
def embed_team_logos (html oppUrl spartaUrl : String)
    (fOpp fSparta : FetchResult) : String :=
  embedOneLogo SPARTA_PLACEHOLDER (embedOneLogo OPP_PLACEHOLDER html oppUrl fOpp)
    spartaUrl fSparta

/-- `EmailManager._embed_map_image`: the configured map path ends in
    `.jpg`, so the MIME type is always `image/jpeg`. -/
def embed_map_image (html : String) (mapFile : Option (List Nat)) : String :=
  match mapFile with
  | none => html
  | some bytes =>
    Py.replace html "src=\"assets/cricket_pitch_map.jpg\""
      ("src=\"data:image/jpeg;base64," ++ (⟨b64Encode bytes⟩ : String) ++ "\"")

/-- `EmailManager.calculate_send_date`.  The result is the rata-die day
    number of the computed date together with the configured send time;
    `none` models the `OverflowError` Python raises when the subtraction
    falls before `date.min`. -/
def calculate_send_date (game : Calendar.Date) : Option (Nat × (Nat × Nat)) :=
  let w := Calendar.weekday game
  let days_before0 := (w + 6) % 7
  let days_before := if days_before0 = 0 then 7 else days_before0
  let rd := Calendar.rataDie game
  if days_before < rd then some (rd - days_before, Config.EMAIL_SEND_TIME)
  else none

def pad2 (n : Nat) : String := if n < 10 then "0" ++ toString n else toString n

/-- `game_date.strftime(config.DISPLAY_DATE_FORMAT)` with format
    `"%A, %B %d"`. -/
def display_date (d : Calendar.Date) : String :=
  Calendar.weekdayName d ++ ", " ++ Calendar.monthNames.getD (d.month - 1) ""
    ++ " " ++ pad2 d.day

/-- `EmailManager.get_cc_emails`. -/
def get_cc_emails : List String :=
  if Config.CC_EMAILS = "" then []
  else ((Py.splitOn Config.CC_EMAILS ",").map Py.strip).filter (· ≠ "")

/-- `EmailManager.draft_game_invitation`.  Returns (result, whether the
    draft-creation call was reached).  `saveResult` is the outcome of
    `save_email_as_draft` (Gmail service oracle). -/
def draft_game_invitation (template : Option String)
    (fOpp fSparta : FetchResult) (mapFile : Option (List Nat))
    (saveResult : Bool) (g : Scraper.GameRecord) : Bool × Bool :=
  match template with
  | none => (false, false)
  | some t =>
    let c := Py.replace t "{DATE}" (display_date g.date)
    let c := Py.replace c "{OPPONENT_TEAM}" g.opponent
    let c := Py.replace c "{MAP_LINK}" Config.SPARTA_MAP_LINK
    let c := embed_team_logos c g.opponent_logo (g.sparta_logo.getD "") fOpp fSparta
    let _body := embed_map_image c mapFile
    match calculate_send_date g.date with
    | none => (false, false)
    | some _ => (saveResult, true)

end EmailManager

/-! Model of `main.py` (class `BiweeklyTaskAutomation`).  The contact
directory is the loaded table, and drafting is an oracle
`draft : GameRecord → List String → Bool` standing for
`EmailManager.draft_game_invitation`.  `process_game` also returns the
list of externally visible steps it performed, in order, so that
statements about *when* the contact lookup happens are expressible. -/

namespace Main

inductive Action where
  | lookupContacts
  | draftEmail
deriving DecidableEq, Repr

/-- `BiweeklyTaskAutomation._process_game`. -/
def process_game (dir : List (String × List String))
    (draft : Scraper.GameRecord → List String → Bool)
    (g : Scraper.GameRecord) : Bool × List Action :=
  match ContactsParser.get_team_contact dir g.opponent with
  | none => (false, [Action.lookupContacts])
  | some contact_emails =>
    if contact_emails = [] then (false, [Action.lookupContacts])
    else if Calendar.weekday g.date = 5 then (true, [Action.lookupContacts])
    else (draft g contact_emails, [Action.lookupContacts, Action.draftEmail])

/-- `BiweeklyTaskAutomation.run`.  The outer `Option` is the result of
    `get_page_content` (`none` = fetch failed); the inner one is the
    parsed page handed to `extract_sunday_games`. -/
def run (page : Option (Option (List Scraper.Entry))) (today : Calendar.Date)
    (dir : List (String × List String))
    (draft : Scraper.GameRecord → List String → Bool) : Bool :=
  match page with
  | none => false
  | some soup =>
    let games := Scraper.extract_sunday_games soup today
    if games = [] then true
    else decide (0 < games.countP (fun g => (process_game dir draft g).1))

end Main

/-! ### Concrete sample data used by witnesses and counterexamples -/

/-- A well-formed upcoming-Sunday fixture card (the spec's §8 scenario). -/
def sampleSundayCard : Scraper.Entry :=
  { schTime := some ⟨some "Sunday", some "27", some "Jul 2025"⟩,
    scheduleTextH3 := some (some ["SPARTA XI", "v", "Rivals CC"]),
    logoDiv := some [some "spartaLogoURL", some "rivalsLogoURL"] }

/-- The game record `sampleSundayCard` parses to. -/
def sampleRecord : Scraper.GameRecord :=
  ⟨"Rivals CC", ⟨2025, 7, 27⟩, "rivalsLogoURL", some "spartaLogoURL"⟩

/-- A fixture card whose month-year text names no valid month ("Foo"):
`month_map.get` defaults the month to 1, and 2025-01-26 happens to be a
Sunday, matching the card's weekday label. -/
def sampleFooCard : Scraper.Entry :=
  { schTime := some ⟨some "Sunday", some "26", some "Foo 2025"⟩,
    scheduleTextH3 := some (some ["SPARTA XI", "v", "Rivals CC"]),
    logoDiv := some [some "spartaLogoURL", some "rivalsLogoURL"] }

/-- The twelve month abbreviations `month_map` recognizes. -/
def monthKeys : List String :=
  ["Jan", "Feb", "Mar", "Apr", "May", "Jun",
   "Jul", "Aug", "Sep", "Oct", "Nov", "Dec"]

/-! ### Claims -/

theorem is_valid_sunday_game_iff (g : Scraper.GameRecord) (today : Calendar.Date) :
    Scraper.is_valid_sunday_game g today = true ↔
      Calendar.dateLe g.date today = false ∧ Calendar.weekday g.date = 6 := by
  cases hle : Calendar.dateLe g.date today
  · by_cases hwd : Calendar.weekday g.date = 6
    · simp [Scraper.is_valid_sunday_game, hle, hwd]
    · simp [Scraper.is_valid_sunday_game, hle, hwd]
  · simp [Scraper.is_valid_sunday_game, hle]

/-- C1: every game record returned by `extract_sunday_games` has a date
strictly greater than `today` and a weekday equal to Sunday; no past or
non-Sunday record is ever returned. -/
theorem C1_extract_only_future_sundays
    (page : Option (List Scraper.Entry)) (today : Calendar.Date)
    (g : Scraper.GameRecord)
    (h : g ∈ Scraper.extract_sunday_games page today) :
    Calendar.dateLt today g.date = true ∧ Calendar.weekday g.date = 6 := by
  cases page with
  | none => simp [Scraper.extract_sunday_games] at h
  | some entries =>
    simp only [Scraper.extract_sunday_games] at h
    obtain ⟨e, -, hfe⟩ := List.mem_filterMap.mp h
    cases hp : Scraper.parse_game_entry e with
    | none => rw [hp] at hfe; simp at hfe
    | some g' =>
      rw [hp] at hfe
      simp only at hfe
      split at hfe
      · next hvalid =>
        obtain ⟨h1, h2⟩ := (is_valid_sunday_game_iff g' today).mp hvalid
        cases hfe
        exact ⟨Calendar.dateLt_of_not_dateLe h1, h2⟩
      · simp at hfe

theorem extract_date_weekday_matches
    (e : Scraper.Entry) (gd : Calendar.Date)
    (h : Scraper.extract_date e = some gd) :
    ∃ st t4, e.schTime = some st ∧ st.dayText = some t4 ∧
      Calendar.weekdayName gd = Py.strip t4 := by
  unfold Scraper.extract_date at h
  split at h
  · exact absurd h (by simp)
  next st hst =>
    split at h
    next t4 t2 t5 h4 h2 h5 =>
      simp only at h
      split at h
      · split at h
        · split at h
          · split at h
            next hname =>
              cases h
              exact ⟨st, t4, hst, h4, hname⟩
            next => exact absurd h (by simp)
          · exact absurd h (by simp)
        · exact absurd h (by simp)
      · exact absurd h (by simp)
    next =>
      exact absurd h (by simp)

/-- C2: `_extract_date` returns a date only when that date's weekday name
equals the card's declared (stripped) weekday label, so no game record is
ever produced whose stored date has a weekday different from the label
shown on the card. -/
theorem C2_weekday_label_consistency :
    (∀ (e : Scraper.Entry) (gd : Calendar.Date),
      Scraper.extract_date e = some gd →
        ∃ st t4, e.schTime = some st ∧ st.dayText = some t4 ∧
          Calendar.weekdayName gd = Py.strip t4)
    ∧ (∀ (e : Scraper.Entry) (g : Scraper.GameRecord),
      Scraper.parse_game_entry e = some g →
        ∃ st t4, e.schTime = some st ∧ st.dayText = some t4 ∧
          Calendar.weekdayName g.date = Py.strip t4) := by
  refine ⟨extract_date_weekday_matches, ?_⟩
  intro e g h
  unfold Scraper.parse_game_entry at h
  split at h
  · exact absurd h (by simp)
  next gd hgd =>
    split at h
    · exact absurd h (by simp)
    next oi hoi =>
      cases h
      exact extract_date_weekday_matches e gd hgd

theorem C2_weekday_label_consistency_witness :
    (∃ st t4, sampleSundayCard.schTime = some st ∧ st.dayText = some t4 ∧
      Calendar.weekdayName ⟨2025, 7, 27⟩ = Py.strip t4) := by
  exact C2_weekday_label_consistency.1 sampleSundayCard ⟨2025, 7, 27⟩ (by decide)

/-- C4 counterexample: the claim says a card whose month-year text names
no valid month never yields a game record, but a card labelled
"Sunday 26, Foo 2025" parses successfully — `month_map.get` defaults the
unknown month "Foo" to January and 2025-01-26 is indeed a Sunday — and
the resulting January record even survives the Sunday/future filter. -/
theorem C4_counterexample_unknown_month_yields_record :
    "Foo" ∉ monthKeys
    ∧ Scraper.parse_game_entry sampleFooCard
      = some ⟨"Rivals CC", ⟨2025, 1, 26⟩, "rivalsLogoURL", some "spartaLogoURL"⟩
    ∧ Scraper.extract_sunday_games (some [sampleFooCard]) ⟨2025, 1, 20⟩
      = [⟨"Rivals CC", ⟨2025, 1, 26⟩, "rivalsLogoURL", some "spartaLogoURL"⟩] := by
  decide

theorem monthFromMap_default (s : String) (hs : s ∉ monthKeys) :
    Scraper.monthFromMap s = 1 := by
  simp only [monthKeys, List.mem_cons, not_or, List.not_mem_nil] at hs
  obtain ⟨h1, h2, h3, h4, h5, h6, h7, h8, h9, h10, h11, h12, -⟩ := hs
  simp [Scraper.monthFromMap, h1, h2, h3, h4, h5, h6, h7, h8, h9, h10, h11, h12]

theorem extract_date_components (e : Scraper.Entry) (st : Scraper.SchTime)
    (t4 t2 t5 : String) (hst : e.schTime = some st) (h4 : st.dayText = some t4)
    (h2 : st.dateText = some t2) (h5 : st.monthYearText = some t5) :
    Scraper.extract_date e =
      match Py.splitWs (Py.strip t5) with
      | [ms, ys] =>
        match Py.toInt ys, Py.toInt (Py.strip t2) with
        | some year, some day =>
          match Calendar.mkDate year (Scraper.monthFromMap ms) day with
          | some gd =>
            if Calendar.weekdayName gd = Py.strip t4 then some gd else none
          | none => none
        | _, _ => none
      | _ => none := by
  simp [Scraper.extract_date, hst, h4, h2, h5]

/-- C4 (amended): any missing sub-element, malformed date (month-year
text not splitting into exactly two tokens, non-integer day or year, or
out-of-range date components), weekday mismatch, or fewer than two real
team names causes that single fixture card to be skipped while
extraction of the remaining cards continues; an unrecognized month
abbreviation, however, is not an error: it defaults the month to
January, and such a card yields a game record whenever the resulting
January date's weekday matches the card's declared weekday label (and
its team links parse). -/
theorem C4_amended_per_card_skip :
    (∀ e : Scraper.Entry,
      Scraper.extract_date e = none ∨ Scraper.extract_opponent_and_logo e = none →
        Scraper.parse_game_entry e = none)
    ∧ (∀ e : Scraper.Entry, e.schTime = none → Scraper.extract_date e = none)
    ∧ (∀ (e : Scraper.Entry) (st : Scraper.SchTime), e.schTime = some st →
        st.dayText = none ∨ st.dateText = none ∨ st.monthYearText = none →
        Scraper.extract_date e = none)
    ∧ (∀ (e : Scraper.Entry) (st : Scraper.SchTime) (t4 t2 t5 : String),
        e.schTime = some st → st.dayText = some t4 → st.dateText = some t2 →
        st.monthYearText = some t5 →
        (Py.splitWs (Py.strip t5)).length ≠ 2 →
        Scraper.extract_date e = none)
    ∧ (∀ (e : Scraper.Entry) (st : Scraper.SchTime) (t4 t2 t5 ms ys : String),
        e.schTime = some st → st.dayText = some t4 → st.dateText = some t2 →
        st.monthYearText = some t5 → Py.splitWs (Py.strip t5) = [ms, ys] →
        Py.toInt ys = none ∨ Py.toInt (Py.strip t2) = none →
        Scraper.extract_date e = none)
    ∧ (∀ (e : Scraper.Entry) (st : Scraper.SchTime) (t4 t2 t5 ms ys : String)
        (year day : Int),
        e.schTime = some st → st.dayText = some t4 → st.dateText = some t2 →
        st.monthYearText = some t5 → Py.splitWs (Py.strip t5) = [ms, ys] →
        Py.toInt ys = some year → Py.toInt (Py.strip t2) = some day →
        Calendar.mkDate year (Scraper.monthFromMap ms) day = none →
        Scraper.extract_date e = none)
    ∧ (∀ (e : Scraper.Entry) (st : Scraper.SchTime) (t4 t2 t5 ms ys : String)
        (year day : Int) (gd : Calendar.Date),
        e.schTime = some st → st.dayText = some t4 → st.dateText = some t2 →
        st.monthYearText = some t5 → Py.splitWs (Py.strip t5) = [ms, ys] →
        Py.toInt ys = some year → Py.toInt (Py.strip t2) = some day →
        Calendar.mkDate year (Scraper.monthFromMap ms) day = some gd →
        Calendar.weekdayName gd ≠ Py.strip t4 →
        Scraper.extract_date e = none)
    ∧ (∀ (e : Scraper.Entry) (links : List String),
        e.scheduleTextH3 = some (some links) →
        (links.filter Scraper.isValidTeamLink).length < 2 →
        Scraper.extract_opponent_and_logo e = none)
    ∧ (∀ (today : Calendar.Date) (l1 l2 : List Scraper.Entry) (e : Scraper.Entry),
        Scraper.parse_game_entry e = none →
        Scraper.extract_sunday_games (some (l1 ++ e :: l2)) today
          = Scraper.extract_sunday_games (some (l1 ++ l2)) today)
    ∧ (∀ s : String, s ∉ monthKeys → Scraper.monthFromMap s = 1)
    ∧ (∀ (e : Scraper.Entry) (st : Scraper.SchTime) (t4 t2 t5 ms ys : String)
        (year day : Int) (gd : Calendar.Date),
        e.schTime = some st → st.dayText = some t4 → st.dateText = some t2 →
        st.monthYearText = some t5 → Py.splitWs (Py.strip t5) = [ms, ys] →
        ms ∉ monthKeys →
        Py.toInt ys = some year → Py.toInt (Py.strip t2) = some day →
        Calendar.mkDate year 1 day = some gd →
        Calendar.weekdayName gd = Py.strip t4 →
        Scraper.extract_date e = some gd)
    ∧ (∀ (e : Scraper.Entry) (gd : Calendar.Date) (oi : Scraper.OppInfo),
        Scraper.extract_date e = some gd →
        Scraper.extract_opponent_and_logo e = some oi →
        Scraper.parse_game_entry e = some ⟨oi.name, gd, oi.logo, oi.sparta_logo⟩) := by
  refine ⟨?_, ?_, ?_, ?_, ?_, ?_, ?_, ?_, ?_, monthFromMap_default, ?_, ?_⟩
  · intro e h
    rcases h with h | h
    · simp [Scraper.parse_game_entry, h]
    · cases hd : Scraper.extract_date e <;> simp [Scraper.parse_game_entry, hd, h]
  · intro e h
    simp [Scraper.extract_date, h]
  · intro e st hst h
    rcases h with h | h | h <;>
      cases ha : st.dayText <;> cases hb : st.dateText <;> cases hc : st.monthYearText <;>
      simp_all [Scraper.extract_date]
  · intro e st t4 t2 t5 hst h4 h2 h5 hlen
    rw [extract_date_components e st t4 t2 t5 hst h4 h2 h5]
    generalize hl : Py.splitWs (Py.strip t5) = l
    rw [hl] at hlen
    rcases l with - | ⟨a, - | ⟨b, - | ⟨c, tl⟩⟩⟩
    · rfl
    · rfl
    · exact absurd rfl hlen
    · rfl
  · intro e st t4 t2 t5 ms ys hst h4 h2 h5 hsp hti
    rw [extract_date_components e st t4 t2 t5 hst h4 h2 h5, hsp]
    rcases hti with h | h
    · cases hd : Py.toInt (Py.strip t2) <;> simp [h, hd]
    · cases hy : Py.toInt ys <;> simp [h, hy]
  · intro e st t4 t2 t5 ms ys year day hst h4 h2 h5 hsp hy hd hmk
    rw [extract_date_components e st t4 t2 t5 hst h4 h2 h5, hsp]
    simp [hy, hd, hmk]
  · intro e st t4 t2 t5 ms ys year day gd hst h4 h2 h5 hsp hy hd hmk hname
    rw [extract_date_components e st t4 t2 t5 hst h4 h2 h5, hsp]
    simp [hy, hd, hmk, hname]
  · intro e links hl hlen
    simp [Scraper.extract_opponent_and_logo, hl, hlen]
  · intro today l1 l2 e h
    simp [Scraper.extract_sunday_games, List.filterMap_append, List.filterMap_cons, h]
  · intro e st t4 t2 t5 ms ys year day gd hst h4 h2 h5 hsp hms hy hd hmk hname
    rw [extract_date_components e st t4 t2 t5 hst h4 h2 h5, hsp]
    have h1 := monthFromMap_default ms hms
    simp [hy, hd, h1, hmk, hname]
  · intro e gd oi hdate hopp
    simp [Scraper.parse_game_entry, hdate, hopp]

theorem C4_amended_per_card_skip_witness :
    Scraper.parse_game_entry ⟨none, none, none⟩ = none
    ∧ Scraper.extract_date
        ⟨some ⟨some "Sunday", some "27", some "bad"⟩, none, none⟩ = none
    ∧ Scraper.monthFromMap "Foo" = 1
    ∧ Scraper.extract_date sampleFooCard = some ⟨2025, 1, 26⟩ :=
  ⟨C4_amended_per_card_skip.1 ⟨none, none, none⟩
      (Or.inl (C4_amended_per_card_skip.2.1 ⟨none, none, none⟩ rfl)),
    C4_amended_per_card_skip.2.2.2.1
      ⟨some ⟨some "Sunday", some "27", some "bad"⟩, none, none⟩
      ⟨some "Sunday", some "27", some "bad"⟩ "Sunday" "27" "bad"
      rfl rfl rfl rfl (by decide),
    C4_amended_per_card_skip.2.2.2.2.2.2.2.2.2.1 "Foo" (by decide),
    C4_amended_per_card_skip.2.2.2.2.2.2.2.2.2.2.1 sampleFooCard
      ⟨some "Sunday", some "26", some "Foo 2025"⟩ "Sunday" "26" "Foo 2025"
      "Foo" "2025" 2025 26 ⟨2025, 1, 26⟩
      rfl rfl rfl rfl (by decide) (by decide) (by decide) (by decide)
      (by decide) (by decide)⟩

theorem C1_extract_only_future_sundays_witness :
    sampleRecord ∈ Scraper.extract_sunday_games (some [sampleSundayCard]) ⟨2025, 7, 20⟩
      ∧ Calendar.dateLt ⟨2025, 7, 20⟩ sampleRecord.date = true
      ∧ Calendar.weekday sampleRecord.date = 6 := by
  have hmem : sampleRecord ∈
      Scraper.extract_sunday_games (some [sampleSundayCard]) ⟨2025, 7, 20⟩ := by decide
  exact ⟨hmem, C1_extract_only_future_sundays (some [sampleSundayCard]) ⟨2025, 7, 20⟩
    sampleRecord hmem⟩
def GoodDir (d : List (String × List String)) : Prop :=
  ∀ kv ∈ d, kv.2 ≠ [] ∧ ∀ e ∈ kv.2, ContactsParser.is_valid_email e = true

theorem pickEmail_valid (fields : List String) (idx : Option Nat) :
    ∀ e ∈ ContactsParser.pickEmail fields idx,
      ContactsParser.is_valid_email e = true := by
  intro e he
  cases idx with
  | none => simp [ContactsParser.pickEmail] at he
  | some i =>
    simp only [ContactsParser.pickEmail] at he
    split at he
    · split at he
      next hcond =>
        simp only [List.mem_singleton] at he
        subst he
        exact hcond.2
      · simp at he
    · simp at he

theorem rowEmails_valid (fields : List String) (ci vi : Option Nat) :
    ∀ e ∈ ContactsParser.rowEmails fields ci vi,
      ContactsParser.is_valid_email e = true := by
  intro e he
  rcases List.mem_append.mp he with h | h
  · exact pickEmail_valid fields ci e h
  · exact pickEmail_valid fields vi e h

theorem goodDir_assocInsert {d : List (String × List String)} {k : String}
    {v : List String} (hd : GoodDir d) (hv : v ≠ [])
    (hval : ∀ e ∈ v, ContactsParser.is_valid_email e = true) :
    GoodDir (ContactsParser.assocInsert d k v) := by
  induction d with
  | nil =>
    intro kv hkv
    simp only [ContactsParser.assocInsert, List.mem_singleton] at hkv
    subst hkv
    exact ⟨hv, hval⟩
  | cons hd' tl ih =>
    intro kv hkv
    unfold ContactsParser.assocInsert at hkv
    split at hkv
    · rcases List.mem_cons.mp hkv with h | h
      · subst h; exact ⟨hv, hval⟩
      · exact hd _ (List.mem_cons_of_mem _ h)
    · rcases List.mem_cons.mp hkv with h | h
      · subst h; exact hd _ (List.mem_cons_self _ _)
      · exact ih (fun kv' hkv' => hd _ (List.mem_cons_of_mem _ hkv')) _ h

theorem goodDir_loadStep (ti : Nat) (ci vi : Option Nat)
    {acc : List (String × List String)} (h : GoodDir acc) (line : String) :
    GoodDir (ContactsParser.loadStep ti ci vi acc line) := by
  simp only [ContactsParser.loadStep]
  split_ifs with h1 h2 h3 h4
  · exact h
  · exact h
  · exact h
  · exact h
  · exact goodDir_assocInsert h h4 (rowEmails_valid _ ci vi)

theorem goodDir_foldl (ti : Nat) (ci vi : Option Nat) (rows : List String) :
    ∀ acc, GoodDir acc → GoodDir (rows.foldl (ContactsParser.loadStep ti ci vi) acc) := by
  induction rows with
  | nil => intro acc h; exact h
  | cons r tl ih =>
    intro acc h
    exact ih _ (goodDir_loadStep ti ci vi h r)

theorem goodDir_nil : GoodDir [] := fun kv hkv => by simp at hkv

theorem goodDir_loadFrom (lines : List String) :
    GoodDir (ContactsParser.loadFrom lines) := by
  cases lines with
  | nil => exact goodDir_nil
  | cons header rows =>
    unfold ContactsParser.loadFrom
    simp only
    split
    · exact goodDir_nil
    · exact goodDir_foldl _ _ _ _ [] goodDir_nil

theorem goodDir_load (fileLines : List String) :
    GoodDir (ContactsParser.load_contacts fileLines) := by
  unfold ContactsParser.load_contacts
  cases fileLines with
  | nil => exact goodDir_loadFrom []
  | cons l rest =>
    by_cases ht : Py.strip l = "Team Contacts"
    · simp only [ht, if_true]
      exact goodDir_loadFrom rest
    · simp only [ht, if_false]
      exact goodDir_loadFrom (l :: rest)

theorem get_team_contact_mem {d : List (String × List String)} {q : String}
    {v : List String} (h : ContactsParser.get_team_contact d q = some v) :
    ∃ k, (k, v) ∈ d := by
  unfold ContactsParser.get_team_contact at h
  split at h
  next kv hkv =>
    cases h
    exact ⟨kv.1, by simpa using List.mem_of_find?_eq_some hkv⟩
  next =>
    cases hf : d.find? (ContactsParser.partialPred q) with
    | none => rw [hf] at h; simp at h
    | some kv =>
      rw [hf] at h
      simp only [Option.map_some'] at h
      cases h
      exact ⟨kv.1, by simpa using List.mem_of_find?_eq_some hf⟩

/-- C3: contact lookup is total and never returns an empty success: the
direct parser's `get_team_contact` on a loaded directory returns either
a non-empty list whose every element passed the email validator, or
`None`; `_parse_llm_response` satisfies the same property for every
possible response string. -/
theorem C3_lookup_never_empty_success :
    (∀ (fileLines : List String) (q : String) (v : List String),
      ContactsParser.get_team_contact (ContactsParser.load_contacts fileLines) q = some v →
        v ≠ [] ∧ ∀ e ∈ v, ContactsParser.is_valid_email e = true)
    ∧ (∀ (response : String) (l : List String),
      LLMContacts.parse_llm_response response = some l →
        l ≠ [] ∧ ∀ e ∈ l, LLMContacts.is_valid_email e = true) := by
  constructor
  · intro lines q v h
    obtain ⟨k, hk⟩ := get_team_contact_mem h
    exact goodDir_load lines (k, v) hk
  · intro resp l h
    unfold LLMContacts.parse_llm_response at h
    simp only at h
    split at h
    · exact absurd h (by simp)
    · split at h
      · exact absurd h (by simp)
      next hne =>
        cases h
        refine ⟨hne, ?_⟩
        intro e he
        exact List.of_mem_filter he

def sampleLines : List String :=
  ["Team Contacts", "Team\tCaptain Email", "Rivals CC\trival@x.com"]

/-- C5 counterexample: a Saturday fixture is *not* skipped before
resolving contacts, and the skip *does* depend on whether a contact
entry exists: with an empty contact directory, `_process_game` on a
Saturday game (2025-07-26) performs the contact lookup and returns
failure rather than skipping. -/
theorem C5_counterexample_lookup_before_skip :
    Calendar.weekday (⟨2025, 7, 26⟩ : Calendar.Date) = 5
    ∧ (Main.process_game [] (fun _ _ => true)
        ⟨"Rivals CC", ⟨2025, 7, 26⟩, "rivalsLogoURL", none⟩).1 = false
    ∧ Main.Action.lookupContacts ∈
        (Main.process_game [] (fun _ _ => true)
          ⟨"Rivals CC", ⟨2025, 7, 26⟩, "rivalsLogoURL", none⟩).2 := by
  decide

/-- C5 (amended): for every fixture on the away-game day (Saturday), the
orchestrator resolves contacts *first*; when the lookup succeeds with a
non-empty list the fixture is then skipped before drafting (success, no
draft attempted), but when no contact entry exists the fixture is
reported as a failure rather than skipped. -/
theorem C5_amended_saturday_skip_after_lookup
    (dir : List (String × List String))
    (draft : Scraper.GameRecord → List String → Bool)
    (g : Scraper.GameRecord) (hsat : Calendar.weekday g.date = 5) :
    (∀ emails, ContactsParser.get_team_contact dir g.opponent = some emails →
      emails ≠ [] →
      Main.process_game dir draft g = (true, [Main.Action.lookupContacts]))
    ∧ (ContactsParser.get_team_contact dir g.opponent = none →
      Main.process_game dir draft g = (false, [Main.Action.lookupContacts])) := by
  constructor
  · intro emails hlook hne
    simp [Main.process_game, hlook, hne, hsat]
  · intro hlook
    simp [Main.process_game, hlook]

theorem C5_amended_saturday_skip_after_lookup_witness :
    Calendar.weekday (⟨2025, 7, 26⟩ : Calendar.Date) = 5
    ∧ Main.process_game [("Rivals CC", ["rival@x.com"])] (fun _ _ => true)
        ⟨"Rivals CC", ⟨2025, 7, 26⟩, "rivalsLogoURL", none⟩
        = (true, [Main.Action.lookupContacts]) :=
  ⟨by decide,
    (C5_amended_saturday_skip_after_lookup [("Rivals CC", ["rival@x.com"])]
        (fun _ _ => true)
        ⟨"Rivals CC", ⟨2025, 7, 26⟩, "rivalsLogoURL", none⟩ (by decide)).1
      ["rival@x.com"] (by decide) (by decide)⟩

/-- C7: for every Sunday game date, `calculate_send_date` returns the
day exactly 5 days earlier — a Tuesday strictly before the game — at the
fixed configured send time 19:00, and `draft_game_invitation` (with a
loaded template) still reaches the draft-creation call and returns its
outcome, whatever the computed send date is used for. -/
theorem C7_send_date_tuesday_before
    (g : Scraper.GameRecord) (t : String)
    (fo fs : EmailManager.FetchResult) (mp : Option (List Nat)) (save : Bool)
    (hs : Calendar.weekday g.date = 6) :
    EmailManager.calculate_send_date g.date
      = some (Calendar.rataDie g.date - 5, Config.EMAIL_SEND_TIME)
    ∧ Config.EMAIL_SEND_TIME = (19, 0)
    ∧ Calendar.rdWeekday (Calendar.rataDie g.date - 5) = 1
    ∧ Calendar.rataDie g.date - 5 < Calendar.rataDie g.date
    ∧ EmailManager.draft_game_invitation (some t) fo fs mp save g = (save, true) := by
  have hwd : (Calendar.rataDie g.date - 1) % 7 = 6 := hs
  have hrd : 7 ≤ Calendar.rataDie g.date := by
    have hle := Nat.mod_le (Calendar.rataDie g.date - 1) 7
    omega
  have hcalc : EmailManager.calculate_send_date g.date
      = some (Calendar.rataDie g.date - 5, Config.EMAIL_SEND_TIME) := by
    unfold EmailManager.calculate_send_date
    rw [hs]
    norm_num
    intro hc
    exact absurd hc (by omega)
  refine ⟨hcalc, rfl, ?_, by omega, ?_⟩
  · unfold Calendar.rdWeekday
    omega
  · unfold EmailManager.draft_game_invitation
    simp only [hcalc]

theorem C7_send_date_tuesday_before_witness :
    Calendar.weekday (⟨2025, 7, 27⟩ : Calendar.Date) = 6
    ∧ EmailManager.calculate_send_date ⟨2025, 7, 27⟩
        = some (Calendar.rataDie ⟨2025, 7, 27⟩ - 5, Config.EMAIL_SEND_TIME)
    ∧ EmailManager.draft_game_invitation (some "T")
        EmailManager.FetchResult.err EmailManager.FetchResult.err none true
        sampleRecord = (true, true) := by
  have h := C7_send_date_tuesday_before sampleRecord "T"
    EmailManager.FetchResult.err EmailManager.FetchResult.err none true (by decide)
  exact ⟨by decide, h.1, h.2.2.2.2⟩

/-- C9: given a successfully fetched schedule page, the run reports
success exactly when the candidate game list is empty or at least one
game was processed successfully; processing failures of individual games
do not prevent the rest from being counted. -/
theorem C9_run_success_iff
    (soup : Option (List Scraper.Entry)) (today : Calendar.Date)
    (dir : List (String × List String))
    (draft : Scraper.GameRecord → List String → Bool) :
    Main.run (some soup) today dir draft = true ↔
      (Scraper.extract_sunday_games soup today = []
       ∨ ∃ g ∈ Scraper.extract_sunday_games soup today,
           (Main.process_game dir draft g).1 = true) := by
  unfold Main.run
  by_cases hg : Scraper.extract_sunday_games soup today = []
  · simp [hg]
  · simp only [hg, if_false, decide_eq_true_eq]
    rw [List.countP_pos_iff]
    simp [hg]

theorem C9_run_success_iff_witness :
    Main.run (some (some [sampleSundayCard])) ⟨2025, 7, 20⟩
      [("Rivals CC", ["rival@x.com"])] (fun _ _ => true) = true := by
  refine (C9_run_success_iff (some [sampleSundayCard]) ⟨2025, 7, 20⟩
    [("Rivals CC", ["rival@x.com"])] (fun _ _ => true)).mpr (Or.inr ?_)
  exact ⟨sampleRecord, by decide, by decide⟩

theorem C3_lookup_never_empty_success_witness :
    ContactsParser.get_team_contact (ContactsParser.load_contacts sampleLines) "Rivals CC"
        = some ["rival@x.com"]
    ∧ (["rival@x.com"] ≠ [] ∧
        ∀ e ∈ ["rival@x.com"], ContactsParser.is_valid_email e = true)
    ∧ LLMContacts.parse_llm_response "a@b.co" = some ["a@b.co"]
    ∧ (["a@b.co"] ≠ [] ∧ ∀ e ∈ ["a@b.co"], LLMContacts.is_valid_email e = true) :=
  ⟨by decide,
    C3_lookup_never_empty_success.1 sampleLines "Rivals CC" _ (by decide),
    by decide,
    C3_lookup_never_empty_success.2 "a@b.co" _ (by decide)⟩
def dirKeys (d : List (String × List String)) : List String := d.map (·.1)

theorem mem_dirKeys_assocInsert {d : List (String × List String)} {k k' : String}
    {v : List String} (h : k' ∈ dirKeys (ContactsParser.assocInsert d k v)) :
    k' ∈ dirKeys d ∨ k' = k := by
  induction d with
  | nil =>
    simp only [ContactsParser.assocInsert, dirKeys, List.map_cons, List.map_nil,
      List.mem_singleton] at h
    exact Or.inr h
  | cons hd tl ih =>
    unfold ContactsParser.assocInsert at h
    split at h
    next heq =>
      rcases List.mem_cons.mp h with h' | h'
      · exact Or.inr h'
      · exact Or.inl (List.mem_cons_of_mem _ h')
    next =>
      rcases List.mem_cons.mp h with h' | h'
      · exact Or.inl (by simp [dirKeys, h'])
      · rcases ih h' with h'' | h''
        · exact Or.inl (List.mem_cons_of_mem _ h'')
        · exact Or.inr h''

theorem nodup_dirKeys_assocInsert {d : List (String × List String)} {k : String}
    {v : List String} (h : (dirKeys d).Nodup) :
    (dirKeys (ContactsParser.assocInsert d k v)).Nodup := by
  induction d with
  | nil => simp [ContactsParser.assocInsert, dirKeys]
  | cons hd tl ih =>
    unfold ContactsParser.assocInsert
    simp only [dirKeys, List.map_cons, List.nodup_cons] at h
    split
    next heq =>
      simp only [dirKeys, List.map_cons, List.nodup_cons]
      exact ⟨by rw [← heq]; exact h.1, h.2⟩
    next hne =>
      simp only [dirKeys, List.map_cons, List.nodup_cons]
      refine ⟨?_, ih h.2⟩
      intro hmem
      rcases mem_dirKeys_assocInsert hmem with h' | h'
      · exact h.1 h'
      · exact hne h'

theorem nodup_dirKeys_loadStep (ti : Nat) (ci vi : Option Nat)
    {acc : List (String × List String)} (h : (dirKeys acc).Nodup) (line : String) :
    (dirKeys (ContactsParser.loadStep ti ci vi acc line)).Nodup := by
  simp only [ContactsParser.loadStep]
  split_ifs
  · exact h
  · exact h
  · exact h
  · exact h
  · exact nodup_dirKeys_assocInsert h

theorem nodup_dirKeys_foldl (ti : Nat) (ci vi : Option Nat) (rows : List String) :
    ∀ acc, (dirKeys acc).Nodup →
      (dirKeys (rows.foldl (ContactsParser.loadStep ti ci vi) acc)).Nodup := by
  induction rows with
  | nil => intro acc h; exact h
  | cons r tl ih => intro acc h; exact ih _ (nodup_dirKeys_loadStep ti ci vi h r)

theorem nodup_dirKeys_loadFrom (lines : List String) :
    (dirKeys (ContactsParser.loadFrom lines)).Nodup := by
  cases lines with
  | nil => exact List.nodup_nil
  | cons header rows =>
    unfold ContactsParser.loadFrom
    simp only
    split
    · exact List.nodup_nil
    · exact nodup_dirKeys_foldl _ _ _ _ [] List.nodup_nil

theorem nodup_dirKeys_load (fileLines : List String) :
    (dirKeys (ContactsParser.load_contacts fileLines)).Nodup := by
  unfold ContactsParser.load_contacts
  cases fileLines with
  | nil => exact nodup_dirKeys_loadFrom []
  | cons l rest =>
    by_cases ht : Py.strip l = "Team Contacts"
    · simp only [ht, if_true]; exact nodup_dirKeys_loadFrom rest
    · simp only [ht, if_false]; exact nodup_dirKeys_loadFrom (l :: rest)

theorem find?_exact_of_mem {d : List (String × List String)} {q : String}
    {v : List String} (hnd : (dirKeys d).Nodup) (hmem : (q, v) ∈ d) :
    d.find? (fun kv => decide (kv.1 = q)) = some (q, v) := by
  induction d with
  | nil => simp at hmem
  | cons hd tl ih =>
    simp only [dirKeys, List.map_cons, List.nodup_cons] at hnd
    rcases List.mem_cons.mp hmem with h | h
    · subst h
      simp [List.find?]
    · by_cases hq : hd.1 = q
      · exfalso
        apply hnd.1
        rw [hq]
        exact List.mem_map.mpr ⟨(q, v), h, rfl⟩
      · rw [List.find?_cons_of_neg _ (by simp [hq])]
        exact ih hnd.2 h

/-- C8: `get_team_contact` returns the stored list when the query is
exactly a key of the loaded directory; otherwise it returns the value of
the first stored entry, in iteration order, whose lowercased name
contains the lowercased query as a substring or vice versa; when no
entry matches either way it returns `None`. -/
theorem C8_lookup_exact_then_fuzzy (fileLines : List String) (q : String) :
    (∀ v, (q, v) ∈ ContactsParser.load_contacts fileLines →
      ContactsParser.get_team_contact (ContactsParser.load_contacts fileLines) q
        = some v)
    ∧ ((∀ kv ∈ ContactsParser.load_contacts fileLines, kv.1 ≠ q) →
      (∀ k v,
        (ContactsParser.load_contacts fileLines).find? (ContactsParser.partialPred q)
          = some (k, v) →
        ContactsParser.get_team_contact (ContactsParser.load_contacts fileLines) q
          = some v)
      ∧ ((ContactsParser.load_contacts fileLines).find? (ContactsParser.partialPred q)
          = none →
        ContactsParser.get_team_contact (ContactsParser.load_contacts fileLines) q
          = none)) := by
  constructor
  · intro v hmem
    unfold ContactsParser.get_team_contact
    rw [find?_exact_of_mem (nodup_dirKeys_load fileLines) hmem]
  · intro hnone
    have hex : (ContactsParser.load_contacts fileLines).find?
        (fun kv => decide (kv.1 = q)) = none := by
      apply List.find?_eq_none.mpr
      intro kv hkv
      simp [hnone kv hkv]
    constructor
    · intro k v hf
      unfold ContactsParser.get_team_contact
      rw [hex, hf]
      rfl
    · intro hf
      unfold ContactsParser.get_team_contact
      rw [hex, hf]
      rfl

theorem C8_lookup_exact_then_fuzzy_witness :
    ContactsParser.get_team_contact (ContactsParser.load_contacts sampleLines)
        "Rivals CC" = some ["rival@x.com"]
    ∧ ContactsParser.get_team_contact (ContactsParser.load_contacts sampleLines)
        "rivals" = some ["rival@x.com"] :=
  ⟨(C8_lookup_exact_then_fuzzy sampleLines "Rivals CC").1 ["rival@x.com"] (by decide),
    ((C8_lookup_exact_then_fuzzy sampleLines "rivals").2 (by decide)).1
      "Rivals CC" ["rival@x.com"] (by decide)⟩
theorem prefix_of_append_singleton (q : Char) :
    ∀ (p xs rest : List Char), q ∉ p → xs ++ [q] = p ++ rest →
      Py.isPrefixList p xs = true := by
  intro p
  induction p with
  | nil => intro xs rest hq h; rfl
  | cons a p' ih =>
    intro xs rest hq h
    cases xs with
    | nil =>
      simp only [List.nil_append, List.cons_append, List.cons.injEq] at h
      exact absurd (h.1 ▸ List.mem_cons_self a p') hq
    | cons x xs' =>
      simp only [List.cons_append, List.cons.injEq] at h
      obtain ⟨hax, h'⟩ := h
      subst hax
      simp only [Py.isPrefixList, decide_eq_true_eq, Bool.and_eq_true]
      exact ⟨trivial, ih xs' rest (fun hm => hq (List.mem_cons_of_mem _ hm)) h'⟩

theorem dataTag_ne_urlTag (url : String) (content : List Nat)
    (h : Py.isPrefixList "data:".data url.data = false) :
    EmailManager.dataTag (EmailManager.logoMime url) content
      ≠ EmailManager.urlTag url := by
  intro heq
  have hdata := congrArg String.data heq
  simp only [EmailManager.dataTag, EmailManager.urlTag, String.data_append,
    List.append_assoc] at hdata
  have hsplit : (['s','r','c','=','\"','d','a','t','a',':'] : List Char)
      = ['s','r','c','=','\"'] ++ ['d','a','t','a',':'] := rfl
  rw [hsplit, List.append_assoc] at hdata
  have hcanc := List.append_cancel_left hdata
  have hpref : Py.isPrefixList "data:".data url.data = true := by
    refine prefix_of_append_singleton '\"' "data:".data url.data
      ((EmailManager.logoMime url).data ++ ([';','b','a','s','e','6','4',',']
        ++ (EmailManager.b64Encode content ++ ['\"']))) (by decide) ?_
    have hd5 : "data:".data = (['d','a','t','a',':'] : List Char) := rfl
    rw [hd5]
    exact hcanc.symm
  rw [hpref] at h
  exact Bool.true_eq_false.mp h

/-- C6: for every template, placeholder and (non-empty) logo URL: an
HTTP 200 fetch replaces the placeholder with an embedded base64 data
reference — which is never the original remote URL (for any URL not
itself starting with "data:") — while a non-200 status or a raised
request error replaces it with the original URL unchanged, the function
returning normally in all cases; `_embed_team_logos` is exactly this
treatment applied to the opponent placeholder and then to the own-team
placeholder. -/
theorem C6_logo_embed_or_fallback (ph html url : String) (content : List Nat) (s : Nat)
    (hurl : url ≠ "") :
    (EmailManager.embedOneLogo ph html url (EmailManager.FetchResult.ok 200 content)
        = Py.replace html ph
            (EmailManager.dataTag (EmailManager.logoMime url) content)
      ∧ (Py.isPrefixList "data:".data url.data = false →
          EmailManager.dataTag (EmailManager.logoMime url) content
            ≠ EmailManager.urlTag url))
    ∧ (s ≠ 200 →
        EmailManager.embedOneLogo ph html url (EmailManager.FetchResult.ok s content)
          = Py.replace html ph (EmailManager.urlTag url))
    ∧ EmailManager.embedOneLogo ph html url EmailManager.FetchResult.err
        = Py.replace html ph (EmailManager.urlTag url)
    ∧ (∀ (h0 spartaUrl : String) (fOpp fSparta : EmailManager.FetchResult),
        EmailManager.embed_team_logos h0 url spartaUrl fOpp fSparta
          = EmailManager.embedOneLogo EmailManager.SPARTA_PLACEHOLDER
              (EmailManager.embedOneLogo EmailManager.OPP_PLACEHOLDER h0 url fOpp)
              spartaUrl fSparta) := by
  refine ⟨⟨?_, dataTag_ne_urlTag url content⟩, ?_, ?_, fun _ _ _ _ => rfl⟩
  · simp [EmailManager.embedOneLogo, hurl]
  · intro hns
    unfold EmailManager.embedOneLogo
    rw [if_neg hurl]
    split
    next heq =>
      injection heq with h1 h2
      exact absurd h1 hns
    next => rfl
    next => rfl
  · simp [EmailManager.embedOneLogo, hurl]

theorem C6_logo_embed_or_fallback_witness :
    EmailManager.embedOneLogo EmailManager.OPP_PLACEHOLDER
        "x src=\"{OPPONENT_LOGO}\" y" "http://u/a.png"
        (EmailManager.FetchResult.ok 200 [1, 2, 3])
      = Py.replace "x src=\"{OPPONENT_LOGO}\" y" EmailManager.OPP_PLACEHOLDER
          (EmailManager.dataTag (EmailManager.logoMime "http://u/a.png") [1, 2, 3])
    ∧ EmailManager.dataTag (EmailManager.logoMime "http://u/a.png") [1, 2, 3]
        ≠ EmailManager.urlTag "http://u/a.png"
    ∧ EmailManager.embedOneLogo EmailManager.OPP_PLACEHOLDER
        "x src=\"{OPPONENT_LOGO}\" y" "http://u/a.png"
        (EmailManager.FetchResult.ok 404 [1, 2, 3])
      = Py.replace "x src=\"{OPPONENT_LOGO}\" y" EmailManager.OPP_PLACEHOLDER
          (EmailManager.urlTag "http://u/a.png")
    ∧ EmailManager.embedOneLogo EmailManager.OPP_PLACEHOLDER
        "x src=\"{OPPONENT_LOGO}\" y" "http://u/a.png"
        EmailManager.FetchResult.err
      = Py.replace "x src=\"{OPPONENT_LOGO}\" y" EmailManager.OPP_PLACEHOLDER
          (EmailManager.urlTag "http://u/a.png") := by
  have h := C6_logo_embed_or_fallback EmailManager.OPP_PLACEHOLDER
    "x src=\"{OPPONENT_LOGO}\" y" "http://u/a.png" [1, 2, 3] 404 (by decide)
  exact ⟨h.1.1, h.1.2 (by decide), h.2.1 (by decide), h.2.2.1⟩
theorem matchesAt_of_shape {p r : List Char} {i j : Nat}
    (hs : EmailRe.emailShapeAt p i j = true)
    (hb : EmailRe.boundaryBetween p r = true) :
    EmailRe.matchesAt (p ++ r) i j p.length = true := by
  simp only [EmailRe.emailShapeAt, Bool.and_eq_true, decide_eq_true_eq] at hs
  obtain ⟨⟨⟨⟨⟨⟨⟨⟨h1, h2⟩, h3⟩, h4⟩, h5⟩, h6⟩, h7⟩, h8⟩, h9⟩ := hs
  have hi : i < p.length := (List.getElem?_eq_some.mp h4).1
  have hj : j < p.length := (List.getElem?_eq_some.mp h7).1
  simp only [EmailRe.matchesAt, Bool.and_eq_true, decide_eq_true_eq]
  refine ⟨⟨⟨⟨⟨⟨⟨⟨⟨⟨h1, ?_⟩, ?_⟩, ?_⟩, h5⟩, ?_⟩, ?_⟩, by omega⟩, by simp⟩, ?_⟩, ?_⟩
  · -- wordAt (p ++ r) 0
    unfold EmailRe.wordAt
    rw [List.getElem?_append_left (by omega : 0 < p.length)]
    exact h2
  · -- take i
    rw [List.take_append_of_le_length (Nat.le_of_lt hi)]
    exact h3
  · -- (p++r)[i]?
    rw [List.getElem?_append_left hi]
    exact h4
  · -- domain slice
    rw [List.drop_append_of_le_length (by omega : i + 1 ≤ p.length)]
    rw [List.take_append_of_le_length (by rw [List.length_drop]; omega)]
    exact h6
  · -- (p++r)[j]?
    rw [List.getElem?_append_left hj]
    exact h7
  · -- tld slice
    rw [List.drop_append_of_le_length (by omega : j + 1 ≤ p.length)]
    have hlen : p.length - (j + 1) = (p.drop (j + 1)).length := by
      rw [List.length_drop]
    rw [hlen, List.take_left]
    exact h9
  · -- boundary at p.length
    unfold EmailRe.boundaryBetween at hb
    have hleft : EmailRe.wordAt (p ++ r) (p.length - 1)
        = EmailRe.optWord p.getLast? := by
      unfold EmailRe.wordAt EmailRe.optWord
      rw [List.getElem?_append_left (by omega : p.length - 1 < p.length)]
      rw [← List.getLast?_eq_getElem?]
    have hright : EmailRe.wordAt (p ++ r) p.length = EmailRe.optWord r.head? := by
      unfold EmailRe.wordAt EmailRe.optWord
      rw [List.getElem?_append_right (Nat.le_refl _), Nat.sub_self]
      rw [← List.head?_eq_getElem?]
    rw [hleft, hright]
    exact hb

/-- C10: email validation is a prefix check, not a full-string check:
any string whose beginning has the pattern's shape, followed by a word
boundary, is accepted no matter what follows (e.g. `"a@b.co extra text"`
and `"a@b.co,other@c.com"` are accepted), and the direct-parser and
LLM-path validators behave identically on every string. -/
theorem C10_email_validation_prefix_check :
    (∀ p r : List Char, EmailRe.emailShape p = true →
        EmailRe.boundaryBetween p r = true →
        ContactsParser.is_valid_email ⟨p ++ r⟩ = true)
    ∧ ContactsParser.is_valid_email "a@b.co extra text" = true
    ∧ ContactsParser.is_valid_email "a@b.co,other@c.com" = true
    ∧ ∀ s : String, ContactsParser.is_valid_email s = LLMContacts.is_valid_email s := by
  refine ⟨?_, by decide, by decide, fun s => rfl⟩
  intro p r hshape hb
  simp only [EmailRe.emailShape, List.any_eq_true, List.mem_range] at hshape
  obtain ⟨i, hi, j, hj, hs⟩ := hshape
  have hm := matchesAt_of_shape hs hb
  show EmailRe.reMatch (p ++ r) = true
  simp only [EmailRe.reMatch, List.any_eq_true, List.mem_range]
  refine ⟨i, ?_, j, ?_, p.length, ?_, hm⟩
  · simp only [List.length_append]; omega
  · simp only [List.length_append]; omega
  · simp only [List.length_append]; omega

theorem C10_email_validation_prefix_check_witness :
    EmailRe.emailShape "a@b.co".data = true
    ∧ EmailRe.boundaryBetween "a@b.co".data " extra".data = true
    ∧ ContactsParser.is_valid_email ⟨"a@b.co".data ++ " extra".data⟩ = true :=
  ⟨by decide, by decide,
    C10_email_validation_prefix_check.1 "a@b.co".data " extra".data
      (by decide) (by decide)⟩
